import Mathlib

/-!
Verification development for the FedNLP repository.

The definitions below are shallow embeddings of the Python sources:

* `training/se_transformer_trainer.py` (`SpanExtractionTrainer`:
  the optimizer-grouping block of `train_model`, `build_optimizer`,
  the inner batch body of the training loop, the epoch loop with
  `global_step`/`tr_loss`, and `calculate_results`);
* `experiments/distributed/bilstm_exps/main_fedavg.py`
  (`load_data`, `preprocess_data`, `create_model`, `init_training_device`,
  and the `__main__` effect sequence);
* `experiments/centralized/transformer_exps/obsolete/text_classification.py`
  (`load_data`);
* `experiments/distributed/transformer_exps/obsolete/text_classification_fedavg.py`
  (`load_data`, `main`).

Machine floats carrying losses and weight-decay coefficients are modelled
as rationals; Python exceptions are modelled with `Except`/`Option`.
-/

namespace FedNLP

/-! ## Python string primitives

`sub_in n` models the Python substring test `sub in n`; `py_strip` models
`str.strip()`. -/

/-- Boolean prefix test on character lists. -/
def pre_test : List Char → List Char → Bool
  | [], _ => true
  | _ :: _, [] => false
  | a :: as, b :: bs => a == b && pre_test as bs

/-- Boolean infix (substring) test on character lists: Python's `in`. -/
def inf_test (sub : List Char) : List Char → Bool
  | [] => sub.isEmpty
  | b :: bs => pre_test sub (b :: bs) || inf_test sub bs

/-- Python `sub in s` for strings. -/
def sub_in (sub s : String) : Bool := inf_test sub.toList s.toList

/-- Python `str.strip()` (whitespace trim at both ends). -/
def py_strip (s : String) : String := s.trim

/-! ## Dataset loader dispatch (C3)

`load_data` in the three experiment scripts chooses a `ClientDataLoader`
from one of five `data_preprocessing` modules by dataset name and raises
`"No such dataset"` otherwise. -/

/-- The five `data_preprocessing` modules the scripts can dispatch to. -/
inductive DataModule
  | news20
  | agnews
  | semeval2010task8
  | sentiment140
  | sst2
deriving DecidableEq

/-- `load_data` dispatch of `experiments/distributed/bilstm_exps/main_fedavg.py`
(lines 124-177): the if/elif chain on `dataset_name`, with the final
`raise Exception("No such dataset")`. -/
def load_data_bilstm_fedavg (dataset_name : String) : Except String DataModule :=
  if dataset_name = "20news" then .ok .news20
  else if dataset_name = "agnews" then .ok .agnews
  else if dataset_name = "semeval_2010_task8" then .ok .semeval2010task8
  else if dataset_name = "sentiment140" then .ok .sentiment140
  else if dataset_name = "sst_2" then .ok .sst2
  else .error "No such dataset"

/-- `load_data` dispatch of
`experiments/centralized/transformer_exps/obsolete/text_classification.py`
(lines 98-117). -/
def load_data_centralized_tc (dataset : String) : Except String DataModule :=
  if dataset = "20news" then .ok .news20
  else if dataset = "agnews" then .ok .agnews
  else if dataset = "semeval_2010_task8" then .ok .semeval2010task8
  else if dataset = "sentiment140" then .ok .sentiment140
  else if dataset = "sst_2" then .ok .sst2
  else .error "No such dataset"

/-- `load_data` dispatch of
`experiments/distributed/transformer_exps/obsolete/text_classification_fedavg.py`
(lines 131-144): chooses `data_loader_class` before any loader is built. -/
def load_data_fedavg_tc (dataset : String) : Except String DataModule :=
  if dataset = "20news" then .ok .news20
  else if dataset = "agnews" then .ok .agnews
  else if dataset = "semeval_2010_task8" then .ok .semeval2010task8
  else if dataset = "sentiment140" then .ok .sentiment140
  else if dataset = "sst_2" then .ok .sst2
  else .error "No such dataset"

/-- `create_model` of `main_fedavg.py` (lines 316-329): model-name dispatch
with `raise Exception("No such model")`. -/
def create_model_bilstm (model_name : String) : Except String Unit :=
  if model_name = "bilstm_attention" then .ok ()
  else if model_name = "bilstm" then .ok ()
  else .error "No such model"

/-! ## `init_training_device` (C10)

`main_fedavg.py` lines 332-345.  The returned `torch.device` is modelled by
`Device`; a `KeyError` on the process-to-GPU dict (or the `ZeroDivisionError`
from `client_index % 0` while building it) is modelled by `none`. -/

/-- A torch device: a CUDA device with an index, or the CPU. -/
inductive Device
  | cuda (idx : Nat)
  | cpu
deriving DecidableEq

/-- `init_training_device(process_ID, fl_worker_num, gpu_num_per_machine)`:
process 0 gets `cuda:0` (or CPU when CUDA is unavailable); any other process
looks up `process_gpu_dict[process_ID - 1]` in the dict
`{i : i % gpu_num_per_machine | i < fl_worker_num}` — note the dict lookup
sits inside the conditional expression, so it only runs when CUDA is
available. -/
def init_training_device (cuda_available : Bool)
    (process_ID fl_worker_num gpu_num_per_machine : Nat) : Option Device :=
  if process_ID = 0 then
    some (if cuda_available then Device.cuda 0 else Device.cpu)
  else if gpu_num_per_machine = 0 ∧ fl_worker_num ≠ 0 then
    none
  else if cuda_available then
    if process_ID - 1 < fl_worker_num then
      some (Device.cuda ((process_ID - 1) % gpu_num_per_machine))
    else
      none
  else
    some Device.cpu

/-! ## Training-loop batch body (C2)

`SpanExtractionTrainer.train_model`, lines 165-205: what the repository's own
loop body does with one batch once the model has produced `loss`. -/

/-- GradScaler calls the loop body makes itself. -/
inductive ScalerOp
  | scale
  | unscale
  | scalerStep
  | update
deriving DecidableEq

/-- Outcome of one batch of the training loop: the loss value that
`backward()` is called on, whether `optimizer.step()`/`scheduler.step()` run
for this batch, and the GradScaler calls issued. -/
structure BatchStepResult where
  backwardLoss : ℚ
  optStep : Bool
  scalerOps : List ScalerOp
deriving DecidableEq

/-- Lines 180-205 of `train_model`: divide the loss when
`gradient_accumulation_steps > 1`, call `scaler.scale(loss).backward()` under
fp16, and on `(batch_idx + 1) % gradient_accumulation_steps == 0` run
`scaler.unscale_`, the (scaler-mediated) optimizer step and `scaler.update`. -/
def train_batch_body (fp16 : Bool) (gradient_accumulation_steps : Nat)
    (batch_idx : Nat) (loss : ℚ) : BatchStepResult :=
  let loss1 := if gradient_accumulation_steps > 1
    then loss / (gradient_accumulation_steps : ℚ) else loss
  let backOps := if fp16 then [ScalerOp.scale] else []
  let doStep := (batch_idx + 1) % gradient_accumulation_steps == 0
  let stepOps := if doStep then
      (if fp16 then [ScalerOp.unscale] else []) ++
        (if fp16 then [ScalerOp.scalerStep, ScalerOp.update] else [])
    else []
  { backwardLoss := loss1, optStep := doStep, scalerOps := backOps ++ stepOps }

/-! ## Epoch loop, `global_step` and the returned average loss (C8)

`train_model` lines 136-213, with each batch abstracted to the loss value the
model returns on it. -/

/-- One epoch of the training loop (`for batch_idx, batch in enumerate(...)`):
state is `(global_step, tr_loss)`; `tr_loss` accumulates the (possibly
accumulation-scaled) loss and `global_step` increments exactly when
`(batch_idx + 1) % gradient_accumulation_steps == 0`. -/
def train_epoch (gradient_accumulation_steps : Nat) :
    Nat → Nat × ℚ → List ℚ → Nat × ℚ
  | _, st, [] => st
  | batch_idx, st, loss :: rest =>
    let scaled := if gradient_accumulation_steps > 1
      then loss / (gradient_accumulation_steps : ℚ) else loss
    let st1 : Nat × ℚ := (st.1, st.2 + scaled)
    let st2 : Nat × ℚ :=
      if (batch_idx + 1) % gradient_accumulation_steps == 0
        then (st1.1 + 1, st1.2) else st1
    train_epoch gradient_accumulation_steps (batch_idx + 1) st2 rest

/-- The epoch loop `for epoch in range(0, args.num_train_epochs)`. -/
def train_loop (num_train_epochs gradient_accumulation_steps : Nat)
    (train_dl : List ℚ) : Nat × ℚ :=
  (List.range num_train_epochs).foldl
    (fun st _ => train_epoch gradient_accumulation_steps 0 st train_dl) (0, 0)

/-- `train_model`'s result `(global_step, tr_loss / global_step)`.
`gradient_accumulation_steps = 0` raises already at
`len(self.train_dl) // args.gradient_accumulation_steps` (line 129);
`global_step = 0` raises at the final division (line 213). -/
def train_model_result (num_train_epochs gradient_accumulation_steps : Nat)
    (train_dl : List ℚ) : Except String (Nat × ℚ) :=
  if gradient_accumulation_steps = 0 then .error "ZeroDivisionError"
  else
    let st := train_loop num_train_epochs gradient_accumulation_steps train_dl
    if st.1 = 0 then .error "ZeroDivisionError"
    else .ok (st.1, st.2 / (st.1 : ℚ))

/-! ## `calculate_results` (C9)

`se_transformer_trainer.py` lines 361-411.  Examples carry a guid, the true
answer and the question; `truth_dict` is a Python dict built by repeated
assignment, modelled as an association list with overwrite-or-append
insertion.  The predictions map is a partial map from guids; a missing key
(`KeyError`) is modelled by `none`. -/

/-- One evaluation example of the span-extraction test set. -/
structure QAExample where
  guid : Nat
  answer_text : String
  question_text : String

/-- Python dict assignment `d[k] = v`: overwrite if the key is present,
otherwise append. -/
def dict_insert (d : List (Nat × String)) (k : Nat) (v : String) :
    List (Nat × String) :=
  if d.any (fun kv => kv.1 == k) then
    d.map (fun kv => if kv.1 == k then (kv.1, v) else kv)
  else d ++ [(k, v)]

/-- `truth_dict`: `for example in all_examples: truth_dict[example.guid] =
example.answer_text`. -/
def build_truth_dict (examples : List QAExample) : List (Nat × String) :=
  examples.foldl (fun d ex => dict_insert d ex.guid ex.answer_text) []

/-- The classification loop of `calculate_results` over the items of
`truth_dict`, producing `(correct, similar, incorrect)`.  Each entry is
`correct` when the stripped prediction equals the stripped answer, else
`similar` when either stripped string is a substring of the other, else
`incorrect`; a guid missing from `predictions` aborts with `none`
(Python `KeyError`). -/
def classify_counts (predictions : Nat → Option String) :
    List (Nat × String) → Option (Nat × Nat × Nat)
  | [] => some (0, 0, 0)
  | (q_id, answer) :: rest =>
    match predictions q_id with
    | none => none
    | some pred =>
      match classify_counts predictions rest with
      | none => none
      | some (c, s, i) =>
        if py_strip pred = py_strip answer then some (c + 1, s, i)
        else if sub_in (py_strip pred) (py_strip answer)
            || sub_in (py_strip answer) (py_strip pred) then some (c, s + 1, i)
        else some (c, s, i + 1)

/-- `calculate_results(predictions)` restricted to the three counts it
returns in `result`. -/
def calculate_results (predictions : Nat → Option String)
    (examples : List QAExample) : Option (Nat × Nat × Nat) :=
  classify_counts predictions (build_truth_dict examples)

/-! ## `preprocess_data` of the BiLSTM FedAvg script (C6, C7)

`main_fedavg.py` lines 192-262, up to the point where the source vocabulary
and the pretrained embedding weights are fixed.  A batch's `"X"` entry is a
list of sentences, each a list of tokens. -/

/-- A tokenized sentence. -/
abbrev Sentence := List String

/-- The `"X"` field of one batch: a list of sentences. -/
abbrev BatchX := List Sentence

/-- The slice of the `dataset` list that `preprocess_data` reads and
rewrites: global train/test batches and per-client local train/test
batches. -/
structure RawDataset where
  train_data_global : List BatchX
  test_data_global : List BatchX
  train_data_local : List (List BatchX)
  test_data_local : List (List BatchX)

/-- Modelled from the spec: `build_freq_vocab` of
`data_preprocessing.base.utils` (not under `src/`) builds the
token-frequency counter of the given sentences — each distinct token paired
with its number of occurrences. -/
def build_freq_vocab (x : List Sentence) : List (String × Nat) :=
  x.flatten.dedup.map (fun t => (t, x.flatten.count t))

/-- `low_freq_words`: the tokens of `freq_vocab` whose frequency is at most
`args.do_remove_low_freq_words` (lines 230-233). -/
def low_freq_words (freq_vocab : List (String × Nat)) (k : Nat) :
    List String :=
  (freq_vocab.filter (fun tf => decide (tf.2 ≤ k))).map (fun tf => tf.1)

/-- Modelled from the spec: `remove_words` of `data_preprocessing.base.utils`
(not under `src/`) drops every token of the word set from every sentence. -/
def remove_words (xs : List Sentence) (word_set : List String) :
    List Sentence :=
  xs.map (fun s => s.filter (fun t => decide (t ∉ word_set)))

/-- Modelled from the spec: `build_vocab` of `data_preprocessing.base.utils`
(not under `src/`) builds the source vocabulary keyed by the distinct tokens
of the given sentences; we track its key set. -/
def build_vocab (x : List Sentence) : List String :=
  x.flatten.dedup

/-- The inner helper `__remove_words(word_set)` (lines 213-225): apply
`remove_words` to every global batch and every client's local train and test
batches. -/
def remove_words_everywhere (ds : RawDataset) (word_set : List String) :
    RawDataset where
  train_data_global := ds.train_data_global.map (fun b => remove_words b word_set)
  test_data_global := ds.test_data_global.map (fun b => remove_words b word_set)
  train_data_local :=
    ds.train_data_local.map (fun c => c.map (fun b => remove_words b word_set))
  test_data_local :=
    ds.test_data_local.map (fun c => c.map (fun b => remove_words b word_set))

/-- Modelled from the spec: `load_word2vec_embedding` of
`data_preprocessing.base.utils` (not under `src/`) returns the (possibly
restricted) source vocabulary together with a pretrained weight matrix. -/
def load_word2vec_embedding (source_vocab : List String) :
    List String × List (List ℚ) :=
  (source_vocab, source_vocab.map (fun _ => []))

/-- Modelled from the spec: `load_glove_embedding` of
`data_preprocessing.base.utils` (not under `src/`) returns the (possibly
restricted) source vocabulary together with a pretrained weight matrix of
the requested embedding length. -/
def load_glove_embedding (source_vocab : List String)
    (embedding_length : Nat) : List String × List (List ℚ) :=
  (source_vocab, source_vocab.map (fun _ => List.replicate embedding_length 0))

/-- The arguments of `main_fedavg.py` that the embedded slice reads.
`embedding_name` uses `nargs="?"` so it may be absent (`none`). -/
structure BilstmArgs where
  dataset : String
  model : String
  embedding_name : Option String
  embedding_length : Nat
  do_remove_low_freq_words : Nat
  do_remove_stop_words : Bool
  comm_round : Nat

/-- What `preprocess_data` has established once embeddings are settled
(line 262): the rewritten batch collections, the source vocabulary and the
optional embedding-weight tensor. -/
structure PreprocessedDataset where
  train_data_global : List BatchX
  test_data_global : List BatchX
  train_data_local : List (List BatchX)
  test_data_local : List (List BatchX)
  source_vocab : List String
  embedding_weights : Option (List (List ℚ))

/-- The word-removal phase of `preprocess_data` (lines 203-239): build the
frequency vocabulary over the global train and test batches, remove
low-frequency words when `do_remove_low_freq_words > 0`, then stop words
when `do_remove_stop_words`. -/
def post_removal_dataset (stop_words : List String) (args : BilstmArgs)
    (ds : RawDataset) : RawDataset :=
  let x0 := ds.train_data_global.flatten ++ ds.test_data_global.flatten
  let freq_vocab := build_freq_vocab x0
  let ds1 := if args.do_remove_low_freq_words > 0
    then remove_words_everywhere ds
      (low_freq_words freq_vocab args.do_remove_low_freq_words)
    else ds
  if args.do_remove_stop_words
    then remove_words_everywhere ds1 stop_words else ds1

/-- `preprocess_data(args, dataset)` (lines 192-262): the removal phase,
then the source vocabulary rebuilt from the post-removal global data
(line 247), then the `args.embedding_name` dispatch — note that Python's
`if args.embedding_name:` treats the empty string like an absent value. -/
def preprocess_data (stop_words : List String) (args : BilstmArgs)
    (ds : RawDataset) : Except String PreprocessedDataset :=
  let ds2 := post_removal_dataset stop_words args ds
  let x1 := ds2.train_data_global.flatten ++ ds2.test_data_global.flatten
  let source_vocab := build_vocab x1
  let finish := fun (v : List String) (w : Option (List (List ℚ))) =>
    Except.ok (ε := String)
      { train_data_global := ds2.train_data_global
        test_data_global := ds2.test_data_global
        train_data_local := ds2.train_data_local
        test_data_local := ds2.test_data_local
        source_vocab := v
        embedding_weights := w }
  match args.embedding_name with
  | none => finish source_vocab none
  | some name =>
    if name = "" then finish source_vocab none
    else if name = "word2vec" then
      let vw := load_word2vec_embedding source_vocab
      finish vw.1 (some vw.2)
    else if name = "glove" then
      let vw := load_glove_embedding source_vocab args.embedding_length
      finish vw.1 (some vw.2)
    else .error "No such embedding"

/-! ## Entry-point effect traces (C5)

The distributed entry points are straight-line code after argument parsing:
the observable calls they make are modelled as an effect list.  Data loading
and model construction can raise, which stops the run before the FedAvg
call. -/

/-- The external calls a distributed entry point makes after `FedML_init`. -/
inductive Effect
  | wandbInitCall
  | loadDataCall (m : DataModule)
  | preprocessDataCall
  | createModelCall
  | createTrainerCall
  | fedAvgCall
deriving DecidableEq

/-- The `__main__` block of `main_fedavg.py` (lines 348-427): wandb init on
process 0, `load_data`, `preprocess_data`, `create_model`, trainer
construction, then the single `FedML_FedAvg_distributed` call. -/
def main_effects_bilstm (stop_words : List String) (process_id : Nat)
    (args : BilstmArgs) (ds : RawDataset) : Except String (List Effect) :=
  match load_data_bilstm_fedavg args.dataset with
  | .error e => .error e
  | .ok m =>
    match preprocess_data stop_words args ds with
    | .error e => .error e
    | .ok _ =>
      match create_model_bilstm args.model with
      | .error e => .error e
      | .ok _ =>
        .ok ((if process_id = 0 then [Effect.wandbInitCall] else []) ++
          [Effect.loadDataCall m, Effect.preprocessDataCall,
            Effect.createModelCall, Effect.createTrainerCall,
            Effect.fedAvgCall])

/-- `main(process_id, worker_number, args)` of
`text_classification_fedavg.py` (lines 180-242): `load_data`,
`ClassificationModel` construction, `TransformerTrainer` construction, then
the single `FedML_FedAvg_distributed` call. -/
def main_effects_fedavg_tc (dataset : String) :
    Except String (List Effect) :=
  match load_data_fedavg_tc dataset with
  | .error e => .error e
  | .ok m =>
    .ok [Effect.loadDataCall m, Effect.createModelCall,
      Effect.createTrainerCall, Effect.fedAvgCall]

/-! ## Optimizer grouping in `train_model` and `build_optimizer` (C1, C4)

`se_transformer_trainer.py` lines 73-130 and 413-423.  A model's
`named_parameters()` is a list of (name, parameter) pairs; parameters are
identified by a numeric id.  A parameter-group dict is modelled by the two
keys this code reads and writes: the optional `weight_decay` entry (absent
key = `none`) and the `params` list. -/

/-- `named_parameters()` of the model: names paired with parameter ids. -/
abbrev NamedParams := List (String × Nat)

/-- One entry of `args.custom_parameter_groups`: its `params` name list and
its optional `weight_decay` entry (other keys are irrelevant here). -/
structure CustomGroup where
  params : List String
  weight_decay : Option ℚ

/-- One entry of `args.custom_layer_parameters`: its `layer` number and its
optional `weight_decay` entry. -/
structure LayerGroup where
  layer : Nat
  weight_decay : Option ℚ

/-- One output parameter group handed to the optimizer: parameter ids plus
the optional `weight_decay` entry. -/
structure OptGroup where
  params : List Nat
  weight_decay : Option ℚ

/-- The model-args fields that the optimizer-grouping block of `train_model`
reads. -/
structure TrainerArgs where
  custom_parameter_groups : List CustomGroup
  custom_layer_parameters : List LayerGroup
  train_custom_parameters_only : Bool
  weight_decay : ℚ

/-- `no_decay = ["bias", "LayerNorm.weight"]` (line 73). -/
def no_decay : List String := ["bias", "LayerNorm.weight"]

/-- `any(nd in n for nd in no_decay)`. -/
def any_no_decay (n : String) : Bool := no_decay.any (fun nd => sub_in nd n)

/-- First loop (lines 77-82): one output group per custom parameter group,
holding the model parameters whose names are listed in that group. -/
def custom_groups_out (model : NamedParams) (groups : List CustomGroup) :
    List OptGroup :=
  groups.map (fun g =>
    { weight_decay := g.weight_decay
      params := (model.filter (fun np => decide (np.1 ∈ g.params))).map
        (fun np => np.2) })

/-- The `custom_parameter_names` accumulated by the first loop. -/
def custom_names_init (groups : List CustomGroup) : List String :=
  groups.flatMap (fun g => g.params)

/-- `f"layer.{layer_number}."` (line 86). -/
def layer_pattern (layer_number : Nat) : String :=
  "layer." ++ toString layer_number ++ "."

/-- State of the inner loop of lines 92-98: the updated
`custom_parameter_names` and the `params_d`/`params_nd` lists. -/
structure LayerAcc where
  names : List String
  params_d : List Nat
  params_nd : List Nat

/-- One iteration of `for n, p in self.model.named_parameters()` inside a
custom layer group (lines 92-98). -/
def layer_step (layer_str : String) (acc : LayerAcc) (np : String × Nat) :
    LayerAcc :=
  if np.1 ∉ acc.names ∧ sub_in layer_str np.1 = true then
    if any_no_decay np.1 then
      { names := np.1 :: acc.names
        params_d := acc.params_d
        params_nd := acc.params_nd ++ [np.2] }
    else
      { names := np.1 :: acc.names
        params_d := acc.params_d ++ [np.2]
        params_nd := acc.params_nd }
  else acc

/-- Second loop (lines 84-103): for each custom layer group, split the
still-unclaimed parameters of that layer into a decay group (keeping the
group's own `weight_decay`) and a no-decay group (`weight_decay = 0.0`),
threading `custom_parameter_names`. -/
def process_layer_groups (model : NamedParams) :
    List String → List LayerGroup → List String × List (OptGroup × OptGroup)
  | names, [] => (names, [])
  | names, lg :: rest =>
    let layer_str := layer_pattern lg.layer
    let acc := model.foldl (layer_step layer_str)
      { names := names, params_d := [], params_nd := [] }
    let tail := process_layer_groups model acc.names rest
    (tail.1,
      ({ params := acc.params_d, weight_decay := lg.weight_decay },
        { params := acc.params_nd, weight_decay := some 0 }) :: tail.2)

/-- The two default groups appended when
`not args.train_custom_parameters_only` (lines 105-125): unclaimed
parameters matching no `no_decay` substring with `args.weight_decay`, and
unclaimed `no_decay` parameters with `weight_decay 0.0`. -/
def default_groups (args : TrainerArgs) (model : NamedParams)
    (names : List String) : List OptGroup :=
  if args.train_custom_parameters_only then []
  else
    [ { params := (model.filter (fun np =>
          decide (np.1 ∉ names) && !any_no_decay np.1)).map (fun np => np.2)
        weight_decay := some args.weight_decay },
      { params := (model.filter (fun np =>
          decide (np.1 ∉ names) && any_no_decay np.1)).map (fun np => np.2)
        weight_decay := some 0 } ]

/-- `optimizer_grouped_parameters` as assembled by lines 73-125 of
`train_model`. -/
def optimizer_grouped_parameters (args : TrainerArgs) (model : NamedParams) :
    List OptGroup :=
  let cgs := custom_groups_out model args.custom_parameter_groups
  let names0 := custom_names_init args.custom_parameter_groups
  let layered := process_layer_groups model names0 args.custom_layer_parameters
  cgs ++ layered.2.flatMap (fun pr => [pr.1, pr.2]) ++
    default_groups args model layered.1

/-- The `params_nd`-side groups of the assembled collection: the per-layer
`group_nd`s and (when the default groups are added) the default no-decay
group.  These are exactly the groups whose `weight_decay` the grouping code
itself sets to `0.0`. -/
def nd_side_groups (args : TrainerArgs) (model : NamedParams) :
    List OptGroup :=
  let names0 := custom_names_init args.custom_parameter_groups
  let layered := process_layer_groups model names0 args.custom_layer_parameters
  layered.2.map (fun pr => pr.2) ++
    (if args.train_custom_parameters_only then []
      else
        [{ params := (model.filter (fun np =>
            decide (np.1 ∉ layered.1) && any_no_decay np.1)).map
              (fun np => np.2)
           weight_decay := some 0 }])

/-- Whether some custom layer group's `f"layer.{num}."` pattern occurs in
the name `n`. -/
def matches_any_layer (lgs : List LayerGroup) (n : String) : Bool :=
  lgs.any (fun lg => sub_in (layer_pattern lg.layer) n)

/-- `model.parameters()`: the bare parameter list. -/
def model_parameters (model : NamedParams) : List Nat :=
  model.map (fun np => np.2)

/-- `build_optimizer` (lines 413-423) constructs
`AdamW(model.parameters(), lr=..., eps=...)`: PyTorch wraps a plain
parameter iterable into a single parameter group with no per-group
`weight_decay` entry, so this is what the optimizer constructor receives. -/
def build_optimizer_param_groups (model : NamedParams) : List OptGroup :=
  [{ params := model_parameters model, weight_decay := none }]

/-- What `train_model` sets up before the loop: the
`optimizer_grouped_parameters` collection it assembles (lines 73-125) and
the parameter groups the `AdamW` optimizer actually receives through
`self.build_optimizer(self.model, ...)` (line 130). -/
def train_model_optimizer_setup (args : TrainerArgs) (model : NamedParams) :
    List OptGroup × List OptGroup :=
  (optimizer_grouped_parameters args model, build_optimizer_param_groups model)

/-! ## Concrete instances used by witnesses and counterexamples -/

/-- The dataset-name table the experiment scripts dispatch over. -/
def dataset_table : List (String × DataModule) :=
  [("20news", .news20), ("agnews", .agnews),
    ("semeval_2010_task8", .semeval2010task8),
    ("sentiment140", .sentiment140), ("sst_2", .sst2)]

/-- A model with one plain weight and one bias parameter. -/
def plain_model : NamedParams := [("encoder.weight", 0), ("encoder.bias", 1)]

/-- Trainer args with no custom groups and `weight_decay = 0.0` (the
argparse default of the experiment scripts). -/
def plain_args : TrainerArgs :=
  { custom_parameter_groups := []
    custom_layer_parameters := []
    train_custom_parameters_only := false
    weight_decay := 0 }

/-- Trainer args with one custom parameter group and one custom layer
group. -/
def layered_args : TrainerArgs :=
  { custom_parameter_groups :=
      [{ params := ["c.w"], weight_decay := some 1 }]
    custom_layer_parameters := [{ layer := 0, weight_decay := none }]
    train_custom_parameters_only := false
    weight_decay := 0 }

/-- A model with a custom-grouped parameter, two layer-0 parameters and two
plain parameters. -/
def layered_model : NamedParams :=
  [("c.w", 0), ("encoder.layer.0.attn.weight", 1),
    ("encoder.layer.0.attn.bias", 2), ("pooler.weight", 3),
    ("pooler.bias", 4)]

/-- BiLSTM-script args with no embedding name and no word removal. -/
def sample_bilstm_args : BilstmArgs :=
  { dataset := "20news", model := "bilstm", embedding_name := none
    embedding_length := 0, do_remove_low_freq_words := 0
    do_remove_stop_words := false, comm_round := 10 }

/-- BiLSTM-script args whose `embedding_name` is the empty string. -/
def empty_name_args : BilstmArgs :=
  { sample_bilstm_args with embedding_name := some "" }

/-- BiLSTM-script args selecting the word2vec embedding. -/
def word2vec_args : BilstmArgs :=
  { sample_bilstm_args with embedding_name := some "word2vec" }

/-- BiLSTM-script args removing words of frequency at most 1. -/
def low_freq_args : BilstmArgs :=
  { sample_bilstm_args with do_remove_low_freq_words := 1 }

/-- An empty dataset. -/
def empty_raw_dataset : RawDataset :=
  { train_data_global := [], test_data_global := []
    train_data_local := [], test_data_local := [] }

/-- A dataset whose single client holds the token `"z"` that never occurs in
the global train or test batches. -/
def local_token_dataset : RawDataset :=
  { train_data_global := [[["a"]]], test_data_global := []
    train_data_local := [[[["z", "a"]]]], test_data_local := [] }

/-- A dataset with one global batch holding the two tokens `"a"` and `"b"`,
each of global frequency 1. -/
def small_global_dataset : RawDataset :=
  { train_data_global := [[["a", "b"]]], test_data_global := []
    train_data_local := [], test_data_local := [] }

/-- The token `t` occurs in no sentence of any global batch or any client's
local train/test batch of `ds`. -/
def token_absent_everywhere (t : String) (ds : RawDataset) : Prop :=
  (∀ b ∈ ds.train_data_global, ∀ s ∈ b, t ∉ s) ∧
  (∀ b ∈ ds.test_data_global, ∀ s ∈ b, t ∉ s) ∧
  (∀ c ∈ ds.train_data_local, ∀ b ∈ c, ∀ s ∈ b, t ∉ s) ∧
  (∀ c ∈ ds.test_data_local, ∀ b ∈ c, ∀ s ∈ b, t ∉ s)

/-- Two span-extraction eval examples. -/
def sample_examples : List QAExample :=
  [{ guid := 0, answer_text := "Paris", question_text := "q0" },
    { guid := 1, answer_text := "42", question_text := "q1" }]

/-- Predictions for `sample_examples`: one exact match after stripping, one
strict substring. -/
def sample_predictions : Nat → Option String :=
  fun k => if k = 0 then some " Paris " else some "421"

/-! ## C3: dataset loader dispatch -/

/-- C3: for every dataset name in the fixed five-name set, each experiment
script's `load_data` dispatches to the matching `data_preprocessing` module's
`ClientDataLoader`, and every other name raises `"No such dataset"` without
constructing any loader. -/
theorem claim_C3_dataset_dispatch (name : String) :
    (∀ m : DataModule, (name, m) ∈ dataset_table →
      load_data_bilstm_fedavg name = .ok m ∧
      load_data_centralized_tc name = .ok m ∧
      load_data_fedavg_tc name = .ok m) ∧
    (name ∉ dataset_table.map (fun e => e.1) →
      load_data_bilstm_fedavg name = .error "No such dataset" ∧
      load_data_centralized_tc name = .error "No such dataset" ∧
      load_data_fedavg_tc name = .error "No such dataset") := by
  constructor
  · intro m hm
    simp only [dataset_table, List.mem_cons, List.not_mem_nil, or_false,
      Prod.mk.injEq] at hm
    rcases hm with ⟨h1, h2⟩ | ⟨h1, h2⟩ | ⟨h1, h2⟩ | ⟨h1, h2⟩ | ⟨h1, h2⟩ <;>
      subst h1 <;> subst h2 <;> exact ⟨rfl, rfl, rfl⟩
  · intro hn
    simp only [dataset_table, List.map_cons, List.map_nil, List.mem_cons,
      List.not_mem_nil, or_false, not_or] at hn
    obtain ⟨h1, h2, h3, h4, h5⟩ := hn
    refine ⟨?_, ?_, ?_⟩ <;>
      simp [load_data_bilstm_fedavg, load_data_centralized_tc,
        load_data_fedavg_tc, h1, h2, h3, h4, h5]

/-- Witness for C3 at the names `"20news"` and `"imdb"`. -/
theorem claim_C3_dataset_dispatch_witness :
    load_data_bilstm_fedavg "20news" = .ok .news20 ∧
    load_data_fedavg_tc "imdb" = .error "No such dataset" := by
  refine ⟨((claim_C3_dataset_dispatch "20news").1 .news20 (by decide)).1, ?_⟩
  exact ((claim_C3_dataset_dispatch "imdb").2 (by decide)).2.2

/-! ## C10: `init_training_device` -/

/-- C10: with CUDA available, process 0 is mapped to GPU 0; a worker process
with `1 <= process_ID <= fl_worker_num` and a positive GPU count is mapped to
GPU `(process_ID - 1) % gpu_num_per_machine`; and when
`process_ID - 1 >= fl_worker_num` the dict lookup fails instead of returning
a device. -/
theorem claim_C10_init_training_device
    (process_ID fl_worker_num gpu_num_per_machine : Nat) :
    init_training_device true 0 fl_worker_num gpu_num_per_machine =
      some (Device.cuda 0) ∧
    (1 ≤ process_ID → process_ID ≤ fl_worker_num → 0 < gpu_num_per_machine →
      init_training_device true process_ID fl_worker_num gpu_num_per_machine =
        some (Device.cuda ((process_ID - 1) % gpu_num_per_machine))) ∧
    (1 ≤ process_ID → fl_worker_num ≤ process_ID - 1 →
      0 < gpu_num_per_machine →
      init_training_device true process_ID fl_worker_num gpu_num_per_machine =
        none) := by
  refine ⟨by simp [init_training_device], ?_, ?_⟩
  · intro h1 h2 h3
    have hne : ¬ process_ID = 0 := by omega
    have hg : ¬ (gpu_num_per_machine = 0 ∧ fl_worker_num ≠ 0) := by omega
    have hlt : process_ID - 1 < fl_worker_num := by omega
    simp [init_training_device, hne, hg, hlt]
  · intro h1 h2 h3
    have hne : ¬ process_ID = 0 := by omega
    have hg : ¬ (gpu_num_per_machine = 0 ∧ fl_worker_num ≠ 0) := by omega
    have hlt : ¬ process_ID - 1 < fl_worker_num := by omega
    simp [init_training_device, hne, hg, hlt]

/-- Witness for C10 at `process_ID = 2` (in range) and `process_ID = 5` (out
of range) with 3 workers and 2 GPUs. -/
theorem claim_C10_init_training_device_witness :
    init_training_device true 2 3 2 = some (Device.cuda 1) ∧
    init_training_device true 5 3 2 = none := by
  constructor
  · have h := (claim_C10_init_training_device 2 3 2).2.1
      (by decide) (by decide) (by decide)
    exact h
  · exact (claim_C10_init_training_device 5 3 2).2.2
      (by decide) (by decide) (by decide)

/-! ## C2: the loop body implements accumulation and AMP scaling itself -/

/-- Counterexample to C2 as stated: with `gradient_accumulation_steps = 2`
and fp16 on, the repository's own loop body divides the loss before
`backward()`, gates the optimizer step on the accumulation counter, and
issues the GradScaler scale/unscale/step/update calls itself. -/
theorem claim_C2_counterexample :
    (train_batch_body true 2 1 1).backwardLoss ≠ 1 ∧
    (train_batch_body true 2 0 1).optStep = false ∧
    (train_batch_body true 2 1 1).optStep = true ∧
    (train_batch_body true 2 1 1).scalerOps =
      [ScalerOp.scale, ScalerOp.unscale, ScalerOp.scalerStep,
        ScalerOp.update] := by
  refine ⟨?_, rfl, rfl, rfl⟩
  have h : (train_batch_body true 2 1 1).backwardLoss = 1 / ((2 : Nat) : ℚ) :=
    rfl
  rw [h]
  norm_num

/-- C2 (amended): the training loop of `train_model` performs gradient
accumulation and AMP loss scaling in the repository's own code — it divides
the loss by `gradient_accumulation_steps` whenever that is greater than one,
runs the optimizer step exactly when `(batch_idx + 1)` is a multiple of
`gradient_accumulation_steps`, and under fp16 issues the GradScaler
scale/unscale/step/update calls around it; only the scaler and optimizer
internals live in the external libraries. -/
theorem claim_C2_amended (fp16 : Bool) (gas batch_idx : Nat) (loss : ℚ)
    (hgas : 2 ≤ gas) :
    (train_batch_body fp16 gas batch_idx loss).backwardLoss * (gas : ℚ) =
      loss ∧
    ((train_batch_body fp16 gas batch_idx loss).optStep = true ↔
      (batch_idx + 1) % gas = 0) ∧
    (fp16 = true → (batch_idx + 1) % gas = 0 →
      (train_batch_body fp16 gas batch_idx loss).scalerOps =
        [ScalerOp.scale, ScalerOp.unscale, ScalerOp.scalerStep,
          ScalerOp.update]) ∧
    (fp16 = false →
      (train_batch_body fp16 gas batch_idx loss).scalerOps = []) := by
  have hone : gas > 1 := by omega
  have hne : ((gas : Nat) : ℚ) ≠ 0 := Nat.cast_ne_zero.mpr (by omega)
  refine ⟨?_, ?_, ?_, ?_⟩
  · simp only [train_batch_body, hone, if_true]
    exact div_mul_cancel₀ loss hne
  · simp [train_batch_body]
  · intro hf hs
    simp [train_batch_body, hf, hs]
  · intro hf
    simp [train_batch_body, hf]

/-- Witness for C2 (amended) at fp16, accumulation 2, batch index 1. -/
theorem claim_C2_amended_witness :
    (train_batch_body true 2 1 1).backwardLoss * ((2 : Nat) : ℚ) = 1 ∧
    (train_batch_body true 2 1 1).optStep = true := by
  have h := claim_C2_amended true 2 1 1 (by decide)
  exact ⟨h.1, h.2.1.mpr (by decide)⟩

/-! ## C8: division by `global_step` -/

/-- If no batch index in one epoch triggers the accumulation condition, the
epoch leaves `global_step` unchanged. -/
theorem train_epoch_fst_of_no_step (gas : Nat) (l : List ℚ) :
    ∀ (idx : Nat) (st : Nat × ℚ),
      (∀ i < l.length, (idx + i + 1) % gas ≠ 0) →
      (train_epoch gas idx st l).1 = st.1 := by
  induction l with
  | nil => intro idx st _; rfl
  | cons a l ih =>
    intro idx st h
    have h0 : (idx + 1) % gas ≠ 0 := by
      have := h 0 (by simp)
      simpa using this
    simp only [train_epoch]
    have hbeq : ((idx + 1) % gas == 0) = false := by
      simpa using h0
    rw [hbeq]
    simp only [Bool.false_eq_true, if_false]
    exact ih (idx + 1) _ (fun i hi => by
      have h2 := h (i + 1) (by simpa using Nat.succ_lt_succ hi)
      have heq : idx + (i + 1) + 1 = idx + 1 + i + 1 := by omega
      rw [heq] at h2
      exact h2)

/-- If every epoch leaves `global_step` unchanged, the whole loop ends with
`global_step = 0`. -/
theorem train_loop_fst_eq_zero (epochs gas : Nat) (train_dl : List ℚ)
    (h : ∀ st : Nat × ℚ, (train_epoch gas 0 st train_dl).1 = st.1) :
    (train_loop epochs gas train_dl).1 = 0 := by
  unfold train_loop
  have haux : ∀ (l : List Nat) (st : Nat × ℚ),
      (l.foldl (fun st _ => train_epoch gas 0 st train_dl) st).1 = st.1 := by
    intro l
    induction l with
    | nil => intro st; rfl
    | cons a l ih =>
      intro st
      simp only [List.foldl_cons]
      rw [ih]
      exact h st
  exact haux _ _

/-- C8: `train_model` divides its accumulated loss by `global_step`, which
only advances when `(batch_idx + 1)` is a multiple of
`gradient_accumulation_steps`; a run in which no batch index ever satisfies
the condition (zero epochs, an empty dataloader, or every epoch shorter than
the accumulation window) ends in a division-by-zero error instead of
returning. -/
theorem claim_C8_zero_division (epochs gas : Nat) (train_dl : List ℚ)
    (hgas : 1 ≤ gas)
    (hnone : epochs = 0 ∨ ∀ i < train_dl.length, (i + 1) % gas ≠ 0) :
    train_model_result epochs gas train_dl = .error "ZeroDivisionError" := by
  have hg0 : ¬ gas = 0 := by omega
  have hst : (train_loop epochs gas train_dl).1 = 0 := by
    rcases hnone with h | h
    · subst h
      rfl
    · exact train_loop_fst_eq_zero _ _ _ (fun st =>
        train_epoch_fst_of_no_step gas train_dl 0 st (fun i hi => by
          have h2 := h i hi
          have heq : 0 + i + 1 = i + 1 := by omega
          rw [heq]
          exact h2))
  simp [train_model_result, hg0, hst]

/-- Witness for C8: one epoch, a single batch, accumulation window 2. -/
theorem claim_C8_zero_division_witness :
    train_model_result 1 2 [1] = .error "ZeroDivisionError" :=
  claim_C8_zero_division 1 2 [1] (by decide) (Or.inr (by decide))

/-! ## C5: single FedAvg call -/

/-- C5: whenever a distributed entry point gets past data loading,
preprocessing and model/trainer construction, its effect trace contains
exactly one `FedML_FedAvg_distributed` call — there is no communication-round
loop in the repository's own code. -/
theorem claim_C5_single_fedavg_call (stop_words : List String)
    (process_id : Nat) (args : BilstmArgs) (ds : RawDataset)
    (dataset : String) :
    (∀ tr, main_effects_bilstm stop_words process_id args ds = .ok tr →
      tr.count Effect.fedAvgCall = 1) ∧
    (∀ tr, main_effects_fedavg_tc dataset = .ok tr →
      tr.count Effect.fedAvgCall = 1) := by
  constructor
  · intro tr htr
    unfold main_effects_bilstm at htr
    split at htr
    · cases htr
    · split at htr
      · cases htr
      · split at htr
        · cases htr
        · cases htr
          by_cases hp : process_id = 0 <;>
            simp [hp, List.count_append, List.count_cons]
  · intro tr htr
    unfold main_effects_fedavg_tc at htr
    split at htr
    · cases htr
    · cases htr
      simp [List.count_cons]

/-- Witness for C5: a run of the BiLSTM entry point that reaches the FedAvg
call, whose trace contains it exactly once. -/
theorem claim_C5_single_fedavg_call_witness :
    main_effects_bilstm [] 0 sample_bilstm_args empty_raw_dataset =
      .ok [Effect.wandbInitCall, Effect.loadDataCall .news20,
        Effect.preprocessDataCall, Effect.createModelCall,
        Effect.createTrainerCall, Effect.fedAvgCall] ∧
    ([Effect.wandbInitCall, Effect.loadDataCall .news20,
        Effect.preprocessDataCall, Effect.createModelCall,
        Effect.createTrainerCall, Effect.fedAvgCall].count
          Effect.fedAvgCall = 1) := by
  refine ⟨rfl, ?_⟩
  exact (claim_C5_single_fedavg_call [] 0 sample_bilstm_args
    empty_raw_dataset "x").1 _ rfl

/-! ## C7: embedding-name selection -/

/-- Counterexample to C7 as stated: the empty string is a given value that is
neither `"word2vec"` nor `"glove"`, yet (because `if args.embedding_name:`
is false on it) `preprocess_data` returns normally with `embedding_weights =
None` instead of raising `"No such embedding"`. -/
theorem claim_C7_counterexample :
    empty_name_args.embedding_name = some "" ∧
    preprocess_data [] empty_name_args empty_raw_dataset =
      .ok { train_data_global := [], test_data_global := [],
            train_data_local := [], test_data_local := [],
            source_vocab := [], embedding_weights := none } :=
  ⟨rfl, rfl⟩

/-- C7 (amended): with `embedding_name` equal to `"word2vec"` or `"glove"`
the matching pretrained-embedding loader is applied to the source vocabulary
and `embedding_weights` becomes non-None; with any other non-empty value
`preprocess_data` raises `"No such embedding"`; and with the argument absent
(or empty, which Python's truthiness test treats the same way)
`embedding_weights` stays `None`. -/
theorem claim_C7_amended (stop_words : List String) (args : BilstmArgs)
    (ds : RawDataset) :
    (args.embedding_name = some "word2vec" →
      ∃ r, preprocess_data stop_words args ds = .ok r ∧
        r.embedding_weights.isSome = true) ∧
    (args.embedding_name = some "glove" →
      ∃ r, preprocess_data stop_words args ds = .ok r ∧
        r.embedding_weights.isSome = true) ∧
    (∀ s, args.embedding_name = some s → s ≠ "" → s ≠ "word2vec" →
      s ≠ "glove" →
      preprocess_data stop_words args ds = .error "No such embedding") ∧
    (args.embedding_name = none ∨ args.embedding_name = some "" →
      ∃ r, preprocess_data stop_words args ds = .ok r ∧
        r.embedding_weights = none) := by
  refine ⟨?_, ?_, ?_, ?_⟩
  · intro h
    simp [preprocess_data, h]
  · intro h
    simp [preprocess_data, h]
  · intro s h h1 h2 h3
    simp [preprocess_data, h, h1, h2, h3]
  · intro h
    rcases h with h | h <;> simp [preprocess_data, h]

/-- Witness for C7 (amended) at `embedding_name = "word2vec"`. -/
theorem claim_C7_amended_witness :
    ∃ r, preprocess_data [] word2vec_args empty_raw_dataset = .ok r ∧
      r.embedding_weights.isSome = true :=
  (claim_C7_amended [] word2vec_args empty_raw_dataset).1 rfl

/-! ## C1: the optimizer is not built from `optimizer_grouped_parameters` -/

/-- Counterexample to C1 as stated: for a two-parameter model with default
args, the grouping logic computes a decay group and a no-decay group, but the
`AdamW` constructor receives the single flat group `model.parameters()` —
already the `params` lists differ. -/
theorem claim_C1_counterexample :
    ((train_model_optimizer_setup plain_args plain_model).2.map
        (fun g => g.params)) ≠
      ((train_model_optimizer_setup plain_args plain_model).1.map
        (fun g => g.params)) := by
  decide

/-- The second loop produces one group pair per custom layer group. -/
theorem process_layer_groups_length_eq (model : NamedParams) :
    ∀ (names : List String) (lgs : List LayerGroup),
      (process_layer_groups model names lgs).2.length = lgs.length := by
  intro names lgs
  induction lgs generalizing names with
  | nil => rfl
  | cons lg rest ih => simp [process_layer_groups, ih]

/-- Flattening the decay/no-decay pairs doubles the length. -/
theorem flatMap_pair_length {α : Type} (l : List (α × α)) :
    (l.flatMap (fun pr => [pr.1, pr.2])).length = 2 * l.length := by
  induction l with
  | nil => rfl
  | cons a l ih =>
    simp only [List.flatMap_cons, List.length_append, List.length_cons,
      List.length_nil, List.length_cons, ih]
    omega

/-- C1 (amended): `train_model` assembles `optimizer_grouped_parameters`,
but `build_optimizer` constructs `AdamW` from `model.parameters()` — the
optimizer receives exactly one group holding all model parameters with no
per-group decay setting, while (with `train_custom_parameters_only` false)
the assembled collection always holds at least the two default groups, so
the groups passed are never the assembled ones. -/
theorem claim_C1_amended (args : TrainerArgs) (model : NamedParams)
    (h : args.train_custom_parameters_only = false) :
    (train_model_optimizer_setup args model).2 =
      [{ params := model_parameters model, weight_decay := none }] ∧
    (train_model_optimizer_setup args model).1.length =
      args.custom_parameter_groups.length +
        2 * args.custom_layer_parameters.length + 2 ∧
    (train_model_optimizer_setup args model).2 ≠
      (train_model_optimizer_setup args model).1 := by
  have hlen : (train_model_optimizer_setup args model).1.length =
      args.custom_parameter_groups.length +
        2 * args.custom_layer_parameters.length + 2 := by
    show (optimizer_grouped_parameters args model).length = _
    simp only [optimizer_grouped_parameters]
    rw [List.length_append, List.length_append, flatMap_pair_length,
      process_layer_groups_length_eq]
    simp [custom_groups_out, default_groups, h]
    try omega
  refine ⟨rfl, hlen, ?_⟩
  intro heq
  have h1 : (train_model_optimizer_setup args model).2.length =
      (train_model_optimizer_setup args model).1.length :=
    congrArg List.length heq
  have h2 : (train_model_optimizer_setup args model).2.length = 1 := rfl
  rw [h2, hlen] at h1
  omega

/-- Witness for C1 (amended) at the two-parameter sample model. -/
theorem claim_C1_amended_witness :
    (train_model_optimizer_setup plain_args plain_model).1.length = 2 ∧
    (train_model_optimizer_setup plain_args plain_model).2 ≠
      (train_model_optimizer_setup plain_args plain_model).1 := by
  have h := claim_C1_amended plain_args plain_model rfl
  exact ⟨by simpa [plain_args] using h.2.1, h.2.2⟩

/-! ## C9: `calculate_results` partitions the distinct guids -/

/-- Overwriting an existing key leaves the key list unchanged. -/
theorem dict_insert_map_fst_overwrite (d : List (Nat × String)) (k : Nat)
    (v : String) :
    (d.map (fun kv => if kv.1 == k then (kv.1, v) else kv)).map Prod.fst =
      d.map Prod.fst := by
  rw [List.map_map]
  apply List.map_congr_left
  intro kv _
  by_cases hk : kv.1 = k <;> simp [hk]

/-- Key membership after a Python dict assignment. -/
theorem dict_insert_keys (d : List (Nat × String)) (k : Nat) (v : String)
    (j : Nat) :
    j ∈ (dict_insert d k v).map Prod.fst ↔ j = k ∨ j ∈ d.map Prod.fst := by
  unfold dict_insert
  by_cases h : d.any (fun kv => kv.1 == k)
  · rw [if_pos h, dict_insert_map_fst_overwrite]
    have hk : k ∈ d.map Prod.fst := by
      rcases List.any_eq_true.mp h with ⟨kv, hkv, hbeq⟩
      exact List.mem_map.mpr ⟨kv, hkv, by simpa using hbeq⟩
    constructor
    · exact Or.inr
    · rintro (rfl | hj)
      · exact hk
      · exact hj
  · rw [if_neg h]
    simp only [List.map_append, List.map_cons, List.map_nil,
      List.mem_append, List.mem_cons, List.not_mem_nil, or_false]
    tauto

/-- A Python dict keeps its keys distinct. -/
theorem dict_insert_keys_nodup (d : List (Nat × String)) (k : Nat)
    (v : String) (h : (d.map Prod.fst).Nodup) :
    ((dict_insert d k v).map Prod.fst).Nodup := by
  unfold dict_insert
  by_cases hc : d.any (fun kv => kv.1 == k)
  · rw [if_pos hc, dict_insert_map_fst_overwrite]
    exact h
  · rw [if_neg hc, List.map_append]
    have hk : k ∉ d.map Prod.fst := by
      intro hmem
      rcases List.mem_map.mp hmem with ⟨kv, hkv, hfst⟩
      exact hc (List.any_eq_true.mpr ⟨kv, hkv, by simp [hfst]⟩)
    simp [List.nodup_append, h, hk]

/-- Keys of the `truth_dict` fold remain distinct. -/
theorem truth_dict_fold_nodup :
    ∀ (exs : List QAExample) (d : List (Nat × String)),
      (d.map Prod.fst).Nodup →
      ((exs.foldl (fun d ex => dict_insert d ex.guid ex.answer_text) d).map
        Prod.fst).Nodup := by
  intro exs
  induction exs with
  | nil => intro d hd; exact hd
  | cons ex exs ih =>
    intro d hd
    exact ih _ (dict_insert_keys_nodup d ex.guid ex.answer_text hd)

/-- Key membership in the `truth_dict` fold. -/
theorem truth_dict_fold_keys :
    ∀ (exs : List QAExample) (d : List (Nat × String)) (j : Nat),
      (j ∈ (exs.foldl (fun d ex => dict_insert d ex.guid ex.answer_text)
          d).map Prod.fst ↔
        j ∈ d.map Prod.fst ∨ j ∈ exs.map (fun ex => ex.guid)) := by
  intro exs
  induction exs with
  | nil => intro d j; simp
  | cons ex exs ih =>
    intro d j
    rw [List.foldl_cons, ih, dict_insert_keys]
    simp only [List.map_cons, List.mem_cons]
    tauto

/-- Two duplicate-free `Nat` lists with the same members have the same
length. -/
theorem nodup_length_eq_of_mem_iff {l1 l2 : List Nat} (h1 : l1.Nodup)
    (h2 : l2.Nodup) (h : ∀ j, j ∈ l1 ↔ j ∈ l2) : l1.length = l2.length := by
  rw [← List.toFinset_card_of_nodup h1, ← List.toFinset_card_of_nodup h2]
  congr 1
  ext j
  simp only [List.mem_toFinset]
  exact h j

/-- `truth_dict` has one entry per distinct example guid. -/
theorem build_truth_dict_length (examples : List QAExample) :
    (build_truth_dict examples).length =
      (examples.map (fun ex => ex.guid)).dedup.length := by
  have hk : (build_truth_dict examples).length =
      ((build_truth_dict examples).map Prod.fst).length := by simp
  rw [hk]
  apply nodup_length_eq_of_mem_iff
  · exact truth_dict_fold_nodup examples [] (by simp)
  · exact List.nodup_dedup _
  · intro j
    rw [show build_truth_dict examples =
      examples.foldl (fun d ex => dict_insert d ex.guid ex.answer_text) []
      from rfl]
    rw [truth_dict_fold_keys]
    simp [List.mem_dedup]

/-- The classification loop buckets each dict entry exactly once, so the
counts add up to the dict's length. -/
theorem classify_counts_sum (predictions : Nat → Option String) :
    ∀ d : List (Nat × String),
      (∀ kv ∈ d, (predictions kv.1).isSome = true) →
      ∃ c s i, classify_counts predictions d = some (c, s, i) ∧
        c + s + i = d.length := by
  intro d
  induction d with
  | nil => exact fun _ => ⟨0, 0, 0, rfl, rfl⟩
  | cons kv rest ih =>
    intro hd
    obtain ⟨q, ans⟩ := kv
    obtain ⟨pred, hpred⟩ :=
      Option.isSome_iff_exists.mp (hd (q, ans) (by simp))
    obtain ⟨c, s, i, hcs, hsum⟩ := ih (fun kv' h' => hd kv' (by simp [h']))
    by_cases h1 : py_strip pred = py_strip ans
    · refine ⟨c + 1, s, i, ?_, by simpa using by omega⟩
      simp [classify_counts, hpred, hcs, h1]
    · by_cases h2 : sub_in (py_strip pred) (py_strip ans)
          || sub_in (py_strip ans) (py_strip pred)
      · refine ⟨c, s + 1, i, ?_, by simpa using by omega⟩
        simp [classify_counts, hpred, hcs, h1, h2]
      · refine ⟨c, s, i + 1, ?_, by simpa using by omega⟩
        simp [classify_counts, hpred, hcs, h1, h2]

/-- C9: `calculate_results` sorts every distinct eval-example guid into
exactly one of the correct/similar/incorrect buckets, so whenever the
predictions map has an entry for each example guid the returned counts sum
to the number of distinct guids. -/
theorem claim_C9_bucket_partition (predictions : Nat → Option String)
    (examples : List QAExample)
    (h : ∀ ex ∈ examples, (predictions ex.guid).isSome = true) :
    ∃ c s i, calculate_results predictions examples = some (c, s, i) ∧
      c + s + i = (examples.map (fun ex => ex.guid)).dedup.length := by
  have hd : ∀ kv ∈ build_truth_dict examples,
      (predictions kv.1).isSome = true := by
    intro kv hkv
    have hm : kv.1 ∈ (build_truth_dict examples).map Prod.fst :=
      List.mem_map.mpr ⟨kv, hkv, rfl⟩
    rw [show build_truth_dict examples =
      examples.foldl (fun d ex => dict_insert d ex.guid ex.answer_text) []
      from rfl] at hm
    rw [truth_dict_fold_keys] at hm
    simp only [List.map_nil, List.not_mem_nil, false_or] at hm
    rcases List.mem_map.mp hm with ⟨ex, hex, hguid⟩
    rw [← hguid]
    exact h ex hex
  obtain ⟨c, s, i, hc, hsum⟩ :=
    classify_counts_sum predictions (build_truth_dict examples) hd
  exact ⟨c, s, i, hc, by rw [hsum, build_truth_dict_length]⟩

/-- Witness for C9 at two examples: one exact match, one substring match. -/
theorem claim_C9_bucket_partition_witness :
    ∃ c s i,
      calculate_results sample_predictions sample_examples = some (c, s, i) ∧
      c + s + i =
        (sample_examples.map (fun ex => ex.guid)).dedup.length :=
  claim_C9_bucket_partition sample_predictions sample_examples (by decide)

/-! ## C6: low-frequency word removal -/

/-- Membership in the `low_freq_words` set. -/
theorem mem_low_freq_words (x0 : List Sentence) (k : Nat) (t : String) :
    t ∈ low_freq_words (build_freq_vocab x0) k ↔
      t ∈ x0.flatten ∧ x0.flatten.count t ≤ k := by
  constructor
  · intro h
    rcases List.mem_map.mp h with ⟨tf, htf, rfl⟩
    rcases List.mem_filter.mp htf with ⟨hmem, hdec⟩
    rcases List.mem_map.mp hmem with ⟨a, ha, rfl⟩
    exact ⟨List.mem_dedup.mp ha, by simpa using hdec⟩
  · rintro ⟨ht, hk2⟩
    refine List.mem_map.mpr ⟨(t, x0.flatten.count t), ?_, rfl⟩
    refine List.mem_filter.mpr ⟨?_, by simpa using hk2⟩
    exact List.mem_map.mpr ⟨t, List.mem_dedup.mpr ht, rfl⟩

/-- A word of the removal set survives in no sentence after `remove_words`. -/
theorem remove_words_absent (xs : List Sentence) (ws : List String)
    (t : String) (h : t ∈ ws) : ∀ s ∈ remove_words xs ws, t ∉ s := by
  intro s hs ht
  rcases List.mem_map.mp hs with ⟨s0, _, rfl⟩
  rcases List.mem_filter.mp ht with ⟨_, hdec⟩
  exact (of_decide_eq_true hdec) h

/-- `remove_words` never reintroduces a word. -/
theorem remove_words_keeps_absent (xs : List Sentence) (ws : List String)
    (t : String) (h : ∀ s ∈ xs, t ∉ s) :
    ∀ s ∈ remove_words xs ws, t ∉ s := by
  intro s hs ht
  rcases List.mem_map.mp hs with ⟨s0, hs0, rfl⟩
  exact h s0 hs0 (List.mem_of_mem_filter ht)

/-- `__remove_words` removes a word of the set from every collection. -/
theorem remove_everywhere_absent (ds : RawDataset) (ws : List String)
    (t : String) (h : t ∈ ws) :
    token_absent_everywhere t (remove_words_everywhere ds ws) := by
  refine ⟨?_, ?_, ?_, ?_⟩
  · intro b hb
    rcases List.mem_map.mp hb with ⟨b0, _, rfl⟩
    exact remove_words_absent b0 ws t h
  · intro b hb
    rcases List.mem_map.mp hb with ⟨b0, _, rfl⟩
    exact remove_words_absent b0 ws t h
  · intro c hc b hb
    rcases List.mem_map.mp hc with ⟨c0, _, rfl⟩
    rcases List.mem_map.mp hb with ⟨b0, _, rfl⟩
    exact remove_words_absent b0 ws t h
  · intro c hc b hb
    rcases List.mem_map.mp hc with ⟨c0, _, rfl⟩
    rcases List.mem_map.mp hb with ⟨b0, _, rfl⟩
    exact remove_words_absent b0 ws t h

/-- `__remove_words` never reintroduces a word anywhere. -/
theorem remove_everywhere_keeps_absent (ds : RawDataset) (ws : List String)
    (t : String) (h : token_absent_everywhere t ds) :
    token_absent_everywhere t (remove_words_everywhere ds ws) := by
  obtain ⟨h1, h2, h3, h4⟩ := h
  refine ⟨?_, ?_, ?_, ?_⟩
  · intro b hb
    rcases List.mem_map.mp hb with ⟨b0, hb0, rfl⟩
    exact remove_words_keeps_absent b0 ws t (h1 b0 hb0)
  · intro b hb
    rcases List.mem_map.mp hb with ⟨b0, hb0, rfl⟩
    exact remove_words_keeps_absent b0 ws t (h2 b0 hb0)
  · intro c hc b hb
    rcases List.mem_map.mp hc with ⟨c0, hc0, rfl⟩
    rcases List.mem_map.mp hb with ⟨b0, hb0, rfl⟩
    exact remove_words_keeps_absent b0 ws t (h3 c0 hc0 b0 hb0)
  · intro c hc b hb
    rcases List.mem_map.mp hc with ⟨c0, hc0, rfl⟩
    rcases List.mem_map.mp hb with ⟨b0, hb0, rfl⟩
    exact remove_words_keeps_absent b0 ws t (h4 c0 hc0 b0 hb0)

/-- After the removal phase, a globally occurring token of frequency at most
`do_remove_low_freq_words` is gone from every collection. -/
theorem post_removal_absent (stop_words : List String) (args : BilstmArgs)
    (ds : RawDataset) (t : String)
    (hk : 0 < args.do_remove_low_freq_words)
    (hocc : t ∈ (ds.train_data_global.flatten ++
      ds.test_data_global.flatten).flatten)
    (hfreq : (ds.train_data_global.flatten ++
        ds.test_data_global.flatten).flatten.count t ≤
      args.do_remove_low_freq_words) :
    token_absent_everywhere t (post_removal_dataset stop_words args ds) := by
  have hlow : t ∈ low_freq_words
      (build_freq_vocab (ds.train_data_global.flatten ++
        ds.test_data_global.flatten)) args.do_remove_low_freq_words :=
    (mem_low_freq_words _ _ _).mpr ⟨hocc, hfreq⟩
  simp only [post_removal_dataset]
  rw [if_pos hk]
  by_cases hs : args.do_remove_stop_words
  · rw [if_pos hs]
    exact remove_everywhere_keeps_absent _ _ _
      (remove_everywhere_absent _ _ _ hlow)
  · rw [if_neg hs]
    exact remove_everywhere_absent _ _ _ hlow

/-- Whatever the embedding branch, a successful `preprocess_data` returns
the post-removal collections and the vocabulary rebuilt from the
post-removal global data. -/
theorem preprocess_data_ok_fields (stop_words : List String)
    (args : BilstmArgs) (ds : RawDataset) (r : PreprocessedDataset)
    (hok : preprocess_data stop_words args ds = .ok r) :
    r.train_data_global =
      (post_removal_dataset stop_words args ds).train_data_global ∧
    r.test_data_global =
      (post_removal_dataset stop_words args ds).test_data_global ∧
    r.train_data_local =
      (post_removal_dataset stop_words args ds).train_data_local ∧
    r.test_data_local =
      (post_removal_dataset stop_words args ds).test_data_local ∧
    r.source_vocab = build_vocab
      ((post_removal_dataset stop_words args ds).train_data_global.flatten ++
        (post_removal_dataset stop_words args ds).test_data_global.flatten) := by
  rcases hname : args.embedding_name with _ | name
  · simp only [preprocess_data, hname, Except.ok.injEq] at hok
    subst hok
    exact ⟨rfl, rfl, rfl, rfl, rfl⟩
  · simp only [preprocess_data, hname] at hok
    by_cases h1 : name = ""
    · rw [if_pos h1] at hok
      simp only [Except.ok.injEq] at hok
      subst hok
      exact ⟨rfl, rfl, rfl, rfl, rfl⟩
    · rw [if_neg h1] at hok
      by_cases h2 : name = "word2vec"
      · rw [if_pos h2] at hok
        simp only [Except.ok.injEq] at hok
        subst hok
        exact ⟨rfl, rfl, rfl, rfl, rfl⟩
      · rw [if_neg h2] at hok
        by_cases h3 : name = "glove"
        · rw [if_pos h3] at hok
          simp only [Except.ok.injEq] at hok
          subst hok
          exact ⟨rfl, rfl, rfl, rfl, rfl⟩
        · rw [if_neg h3] at hok
          cases hok

/-- Counterexample to C6 as stated: the client-local token `"z"` has total
frequency 0 over the global train and test batches — below the threshold —
yet it survives removal because `low_freq_words` is built only from the
tokens of the global frequency vocabulary. -/
theorem claim_C6_counterexample :
    (local_token_dataset.train_data_global.flatten ++
      local_token_dataset.test_data_global.flatten).flatten.count "z" = 0 ∧
    0 < low_freq_args.do_remove_low_freq_words ∧
    ∃ r, preprocess_data [] low_freq_args local_token_dataset = .ok r ∧
      ∃ c ∈ r.train_data_local, ∃ b ∈ c, ∃ s ∈ b, "z" ∈ s := by
  refine ⟨rfl, by decide, ?_⟩
  refine ⟨PreprocessedDataset.mk [[[]]] [] [[[["z"]]]] [] [] none, rfl, ?_⟩
  decide

/-- C6 (amended): when `do_remove_low_freq_words = k > 0`, every token that
occurs in the global train or test batches with total frequency at most `k`
is removed from every global batch and every client's local train and test
batches, and the returned source vocabulary — rebuilt from the post-removal
sequences — no longer contains it. -/
theorem claim_C6_amended (stop_words : List String) (args : BilstmArgs)
    (ds : RawDataset) (t : String) (r : PreprocessedDataset)
    (hk : 0 < args.do_remove_low_freq_words)
    (hocc : t ∈ (ds.train_data_global.flatten ++
      ds.test_data_global.flatten).flatten)
    (hfreq : (ds.train_data_global.flatten ++
        ds.test_data_global.flatten).flatten.count t ≤
      args.do_remove_low_freq_words)
    (hok : preprocess_data stop_words args ds = .ok r) :
    (∀ b ∈ r.train_data_global, ∀ s ∈ b, t ∉ s) ∧
    (∀ b ∈ r.test_data_global, ∀ s ∈ b, t ∉ s) ∧
    (∀ c ∈ r.train_data_local, ∀ b ∈ c, ∀ s ∈ b, t ∉ s) ∧
    (∀ c ∈ r.test_data_local, ∀ b ∈ c, ∀ s ∈ b, t ∉ s) ∧
    t ∉ r.source_vocab := by
  obtain ⟨e1, e2, e3, e4, e5⟩ :=
    preprocess_data_ok_fields stop_words args ds r hok
  obtain ⟨a1, a2, a3, a4⟩ := post_removal_absent stop_words args ds t hk hocc hfreq
  rw [e1, e2, e3, e4, e5]
  refine ⟨a1, a2, a3, a4, ?_⟩
  intro ht
  rw [build_vocab, List.mem_dedup, List.mem_flatten] at ht
  rcases ht with ⟨s, hs, hts⟩
  rcases List.mem_append.mp hs with hs | hs
  · rcases List.mem_flatten.mp hs with ⟨b, hb, hsb⟩
    exact a1 b hb s hsb hts
  · rcases List.mem_flatten.mp hs with ⟨b, hb, hsb⟩
    exact a2 b hb s hsb hts

/-- Witness for C6 (amended): in `small_global_dataset` the token `"a"` has
global frequency 1 and is removed everywhere, including from the source
vocabulary. -/
theorem claim_C6_amended_witness :
    (∀ b ∈ (PreprocessedDataset.mk [[[]]] [] [] [] [] none).train_data_global,
      ∀ s ∈ b, "a" ∉ s) ∧
    (∀ b ∈ (PreprocessedDataset.mk [[[]]] [] [] [] [] none).test_data_global,
      ∀ s ∈ b, "a" ∉ s) ∧
    (∀ c ∈ (PreprocessedDataset.mk [[[]]] [] [] [] [] none).train_data_local,
      ∀ b ∈ c, ∀ s ∈ b, "a" ∉ s) ∧
    (∀ c ∈ (PreprocessedDataset.mk [[[]]] [] [] [] [] none).test_data_local,
      ∀ b ∈ c, ∀ s ∈ b, "a" ∉ s) ∧
    "a" ∉ (PreprocessedDataset.mk [[[]]] [] [] [] [] none).source_vocab :=
  claim_C6_amended [] low_freq_args small_global_dataset "a"
    (PreprocessedDataset.mk [[[]]] [] [] [] [] none)
    (by decide) (by decide) (by decide) rfl

/-! ## C4: the grouping logic partitions the named parameters -/

/-- With distinct parameter ids, a parameter id survives a name-based filter
exactly when its own pair does. -/
theorem mem_map_snd_filter (model : NamedParams) (n : String) (p : Nat)
    (hp : (model.map (fun np => np.2)).Nodup) (hmem : (n, p) ∈ model)
    (f : String × Nat → Bool) :
    p ∈ (model.filter f).map (fun np => np.2) ↔ f (n, p) = true := by
  constructor
  · intro h
    rcases List.mem_map.mp h with ⟨np, hnp, hsnd⟩
    rcases List.mem_filter.mp hnp with ⟨hnp_mem, hf⟩
    have heq : np = (n, p) :=
      List.inj_on_of_nodup_map hp hnp_mem hmem (by simpa using hsnd)
    rw [heq] at hf
    exact hf
  · intro hf
    exact List.mem_map.mpr ⟨(n, p), List.mem_filter.mpr ⟨hmem, hf⟩, rfl⟩

/-- The custom groups contain `p` as often as the custom name lists contain
its name. -/
theorem countP_custom_groups (model : NamedParams) (n : String) (p : Nat)
    (hp : (model.map (fun np => np.2)).Nodup) (hmem : (n, p) ∈ model)
    (groups : List CustomGroup) :
    (custom_groups_out model groups).countP
        (fun g => decide (p ∈ g.params)) =
      groups.countP (fun g => decide (n ∈ g.params)) := by
  rw [custom_groups_out, List.countP_map]
  apply List.countP_congr
  intro g _
  simp only [Function.comp]
  have h := mem_map_snd_filter model n p hp hmem
    (fun np => decide (np.1 ∈ g.params))
  simp only [decide_eq_true_eq]
  rw [h]
  simp

/-- A name held by one group of a pairwise-disjoint family is counted
exactly once. -/
theorem countP_params_eq_one (n : String) :
    ∀ groups : List CustomGroup,
      groups.Pairwise (fun g1 g2 => ∀ m ∈ g1.params, m ∉ g2.params) →
      ∀ g0 ∈ groups, n ∈ g0.params →
      groups.countP (fun g => decide (n ∈ g.params)) = 1 := by
  intro groups
  induction groups with
  | nil => intro _ g0 hg0 _; exact absurd hg0 (List.not_mem_nil g0)
  | cons g gs ih =>
    intro hpw g0 hg0 hn0
    rcases List.pairwise_cons.mp hpw with ⟨hrel, hpw2⟩
    rw [List.countP_cons]
    rcases List.mem_cons.mp hg0 with rfl | hg02
    · have htail : gs.countP (fun g => decide (n ∈ g.params)) = 0 := by
        apply List.countP_eq_zero.mpr
        intro g2 hg2
        simp only [decide_eq_true_eq]
        exact hrel g2 hg2 n hn0
      rw [htail]
      simp [hn0]
    · have hhead : n ∉ g.params := fun hn => hrel g0 hg02 n hn hn0
      rw [ih hpw2 g0 hg02 hn0]
      simp [hhead]

/-- A name held by no group is counted zero times. -/
theorem countP_params_eq_zero (n : String) (groups : List CustomGroup)
    (h : ∀ g ∈ groups, n ∉ g.params) :
    groups.countP (fun g => decide (n ∈ g.params)) = 0 := by
  apply List.countP_eq_zero.mpr
  intro g hg
  simp only [decide_eq_true_eq]
  exact h g hg

/-- Membership in the initial `custom_parameter_names`. -/
theorem mem_custom_names_init (groups : List CustomGroup) (n : String) :
    n ∈ custom_names_init groups ↔ ∃ g ∈ groups, n ∈ g.params := by
  simp [custom_names_init]

/-- The `names` component of one `layer_step`. -/
theorem layer_step_names_eq (ls : String) (acc : LayerAcc)
    (np : String × Nat) :
    (layer_step ls acc np).names =
      if np.1 ∉ acc.names ∧ sub_in ls np.1 = true
        then np.1 :: acc.names else acc.names := by
  by_cases h1 : np.1 ∉ acc.names ∧ sub_in ls np.1 = true
  · by_cases h2 : any_no_decay np.1 <;> simp [layer_step, h1, h2]
  · simp [layer_step, h1]

/-- The `params_d` component of one `layer_step`. -/
theorem layer_step_params_d_eq (ls : String) (acc : LayerAcc)
    (np : String × Nat) :
    (layer_step ls acc np).params_d =
      if (np.1 ∉ acc.names ∧ sub_in ls np.1 = true) ∧
          any_no_decay np.1 = false
        then acc.params_d ++ [np.2] else acc.params_d := by
  by_cases h1 : np.1 ∉ acc.names ∧ sub_in ls np.1 = true
  · by_cases h2 : any_no_decay np.1 <;> simp [layer_step, h1, h2]
  · simp [layer_step, h1]

/-- The `params_nd` component of one `layer_step`. -/
theorem layer_step_params_nd_eq (ls : String) (acc : LayerAcc)
    (np : String × Nat) :
    (layer_step ls acc np).params_nd =
      if (np.1 ∉ acc.names ∧ sub_in ls np.1 = true) ∧
          any_no_decay np.1 = true
        then acc.params_nd ++ [np.2] else acc.params_nd := by
  by_cases h1 : np.1 ∉ acc.names ∧ sub_in ls np.1 = true
  · by_cases h2 : any_no_decay np.1 <;> simp [layer_step, h1, h2]
  · simp [layer_step, h1]

/-- Folding over pairs whose names differ from `n` cannot change whether `n`
is among the accumulated names. -/
theorem layer_fold_names_frame (ls : String) (n : String) :
    ∀ (l : List (String × Nat)) (acc : LayerAcc),
      (∀ np ∈ l, np.1 ≠ n) →
      (n ∈ (l.foldl (layer_step ls) acc).names ↔ n ∈ acc.names) := by
  intro l
  induction l with
  | nil => intro acc _; exact Iff.rfl
  | cons hd tl ih =>
    intro acc h
    rw [List.foldl_cons,
      ih _ (fun np hnp => h np (List.mem_cons_of_mem hd hnp))]
    have hne : hd.1 ≠ n := h hd (List.mem_cons_self hd tl)
    rw [layer_step_names_eq]
    split
    · simp only [List.mem_cons]
      constructor
      · rintro (h2 | h2)
        · exact absurd h2.symm hne
        · exact h2
      · exact Or.inr
    · exact Iff.rfl

/-- Folding over pairs whose ids differ from `p` cannot change whether `p`
is in the accumulated decay/no-decay parameter lists. -/
theorem layer_fold_params_frame (ls : String) (p : Nat) :
    ∀ (l : List (String × Nat)) (acc : LayerAcc),
      (∀ np ∈ l, np.2 ≠ p) →
      ((p ∈ (l.foldl (layer_step ls) acc).params_d ↔ p ∈ acc.params_d) ∧
        (p ∈ (l.foldl (layer_step ls) acc).params_nd ↔
          p ∈ acc.params_nd)) := by
  intro l
  induction l with
  | nil => intro acc _; exact ⟨Iff.rfl, Iff.rfl⟩
  | cons hd tl ih =>
    intro acc h
    have hne : hd.2 ≠ p := h hd (List.mem_cons_self hd tl)
    have htl := ih (layer_step ls acc hd)
      (fun np hnp => h np (List.mem_cons_of_mem hd hnp))
    rw [List.foldl_cons, htl.1, htl.2]
    constructor
    · rw [layer_step_params_d_eq]
      split
      · simp only [List.mem_append, List.mem_singleton]
        constructor
        · rintro (h2 | h2)
          · exact h2
          · exact absurd h2.symm hne
        · exact Or.inl
      · exact Iff.rfl
    · rw [layer_step_params_nd_eq]
      split
      · simp only [List.mem_append, List.mem_singleton]
        constructor
        · rintro (h2 | h2)
          · exact h2
          · exact absurd h2.symm hne
        · exact Or.inl
      · exact Iff.rfl

/-- How one layer-group pass treats the pair `(n, p)`: the name is recorded
iff it matches the layer pattern, and the parameter lands in `params_d` or
`params_nd` according to `any_no_decay` — provided it was still unclaimed. -/
theorem layer_fold_capture (ls : String) (n : String) (p : Nat) :
    ∀ (l : List (String × Nat)) (acc : LayerAcc),
      (n, p) ∈ l →
      (l.map (fun np => np.1)).Nodup → (l.map (fun np => np.2)).Nodup →
      p ∉ acc.params_d → p ∉ acc.params_nd →
      ((n ∈ (l.foldl (layer_step ls) acc).names ↔
          (n ∈ acc.names ∨ sub_in ls n = true)) ∧
        (p ∈ (l.foldl (layer_step ls) acc).params_d ↔
          (n ∉ acc.names ∧ sub_in ls n = true ∧ any_no_decay n = false)) ∧
        (p ∈ (l.foldl (layer_step ls) acc).params_nd ↔
          (n ∉ acc.names ∧ sub_in ls n = true ∧ any_no_decay n = true))) := by
  intro l
  induction l with
  | nil => intro acc h; exact absurd h (List.not_mem_nil _)
  | cons hd tl ih =>
    intro acc hmem hn hp hpd hpnd
    rw [List.map_cons] at hn hp
    have hn_head : hd.1 ∉ tl.map (fun np => np.1) := (List.nodup_cons.mp hn).1
    have hp_head : hd.2 ∉ tl.map (fun np => np.2) := (List.nodup_cons.mp hp).1
    have hn2 : (tl.map (fun np => np.1)).Nodup := (List.nodup_cons.mp hn).2
    have hp2 : (tl.map (fun np => np.2)).Nodup := (List.nodup_cons.mp hp).2
    rw [List.foldl_cons]
    rcases List.mem_cons.mp hmem with heq | hmem2
    · subst heq
      have hn_tl : ∀ np ∈ tl, np.1 ≠ n := by
        intro np hnp hne
        exact hn_head (List.mem_map.mpr ⟨np, hnp, hne⟩)
      have hp_tl : ∀ np ∈ tl, np.2 ≠ p := by
        intro np hnp hne
        exact hp_head (List.mem_map.mpr ⟨np, hnp, hne⟩)
      have f1 := layer_fold_names_frame ls n tl
        (layer_step ls acc (n, p)) hn_tl
      have f2 := layer_fold_params_frame ls p tl
        (layer_step ls acc (n, p)) hp_tl
      rw [f1, f2.1, f2.2, layer_step_names_eq, layer_step_params_d_eq,
        layer_step_params_nd_eq]
      dsimp only
      by_cases h1 : n ∈ acc.names
      · simp [h1, hpd, hpnd]
      · by_cases h2 : sub_in ls n = true
        · by_cases h3 : any_no_decay n = true
          · simp [h1, h2, h3, hpd, hpnd]
          · simp [h1, h2, h3, hpd, hpnd]
        · simp [h1, h2, hpd, hpnd]
    · have hne_n : hd.1 ≠ n := by
        intro he
        exact hn_head (he ▸ List.mem_map.mpr ⟨(n, p), hmem2, rfl⟩)
      have hne_p : hd.2 ≠ p := by
        intro he
        exact hp_head (he ▸ List.mem_map.mpr ⟨(n, p), hmem2, rfl⟩)
      have ha_names : n ∈ (layer_step ls acc hd).names ↔ n ∈ acc.names := by
        rw [layer_step_names_eq]
        split
        · simp only [List.mem_cons]
          constructor
          · rintro (h2 | h2)
            · exact absurd h2.symm hne_n
            · exact h2
          · exact Or.inr
        · exact Iff.rfl
      have ha_pd : p ∈ (layer_step ls acc hd).params_d ↔
          p ∈ acc.params_d := by
        rw [layer_step_params_d_eq]
        split
        · simp only [List.mem_append, List.mem_singleton]
          constructor
          · rintro (h2 | h2)
            · exact h2
            · exact absurd h2.symm hne_p
          · exact Or.inl
        · exact Iff.rfl
      have ha_pnd : p ∈ (layer_step ls acc hd).params_nd ↔
          p ∈ acc.params_nd := by
        rw [layer_step_params_nd_eq]
        split
        · simp only [List.mem_append, List.mem_singleton]
          constructor
          · rintro (h2 | h2)
            · exact h2
            · exact absurd h2.symm hne_p
          · exact Or.inl
        · exact Iff.rfl
      obtain ⟨i1, i2, i3⟩ := ih (layer_step ls acc hd) hmem2 hn2 hp2
        (fun h => hpd (ha_pd.mp h)) (fun h => hpnd (ha_pnd.mp h))
      rw [ha_names] at i1 i2 i3
      exact ⟨i1, i2, i3⟩

/-- How the whole second loop treats the pair `(n, p)`: its name joins
`custom_parameter_names` iff it was already there or matches some layer
pattern; the layer groups hold `p` exactly once when the name was unclaimed
and matches, zero times otherwise; and `p` sits on the no-decay side iff
additionally `any_no_decay` holds for its name. -/
theorem process_layer_groups_spec (model : NamedParams) (n : String)
    (p : Nat) (hmem : (n, p) ∈ model)
    (hn : (model.map (fun np => np.1)).Nodup)
    (hp : (model.map (fun np => np.2)).Nodup) :
    ∀ (lgs : List LayerGroup) (names : List String),
      ((n ∈ (process_layer_groups model names lgs).1 ↔
          (n ∈ names ∨ matches_any_layer lgs n = true)) ∧
        (((process_layer_groups model names lgs).2.flatMap
            (fun pr => [pr.1, pr.2])).countP
              (fun g => decide (p ∈ g.params)) =
          if n ∈ names then 0
          else if matches_any_layer lgs n = true then 1 else 0) ∧
        (p ∈ ((process_layer_groups model names lgs).2.map
            (fun pr => pr.2)).flatMap (fun g => g.params) ↔
          (n ∉ names ∧ matches_any_layer lgs n = true ∧
            any_no_decay n = true))) := by
  intro lgs
  induction lgs with
  | nil =>
    intro names
    refine ⟨by simp [process_layer_groups, matches_any_layer], ?_, ?_⟩
    · simp [process_layer_groups, matches_any_layer]
    · simp [process_layer_groups, matches_any_layer]
  | cons lg rest ih =>
    intro names
    obtain ⟨c1, c2, c3⟩ := layer_fold_capture (layer_pattern lg.layer) n p
      model { names := names, params_d := [], params_nd := [] } hmem hn hp
      (by simp) (by simp)
    simp only [process_layer_groups]
    generalize hgen : (model.foldl (layer_step (layer_pattern lg.layer))
      { names := names, params_d := [], params_nd := [] }) = A at c1 c2 c3 ⊢
    obtain ⟨i1, i2, i3⟩ := ih A.names
    refine ⟨?_, ?_⟩
    · rw [i1, c1]
      simp only [matches_any_layer, List.any_cons, Bool.or_eq_true]
      exact or_assoc
    · by_cases hin : n ∈ names
      · have hA : n ∈ A.names := c1.mpr (Or.inl hin)
        have hd : p ∉ A.params_d := fun h => (c2.mp h).1 hin
        have hnd2 : p ∉ A.params_nd := fun h => (c3.mp h).1 hin
        rw [if_pos hA] at i2
        constructor
        · simp [List.countP_append, List.countP_cons, i2, hd, hnd2, hin]
        · simp [hnd2, hin, i3, hA]
      · by_cases hsub : sub_in (layer_pattern lg.layer) n = true
        · have hA : n ∈ A.names := c1.mpr (Or.inr hsub)
          rw [if_pos hA] at i2
          by_cases hnd : any_no_decay n = true
          · have hd : p ∉ A.params_d :=
              fun h => absurd (c2.mp h).2.2 (by simp [hnd])
            have hndin : p ∈ A.params_nd := c3.mpr ⟨hin, hsub, hnd⟩
            constructor
            · simp [List.countP_append, List.countP_cons, i2, hd, hndin,
                hin, matches_any_layer, List.any_cons, hsub]
            · simp [hndin, hin, matches_any_layer, List.any_cons, hsub, hnd]
          · have hndf : any_no_decay n = false := by
              simpa using hnd
            have hd : p ∈ A.params_d := c2.mpr ⟨hin, hsub, hndf⟩
            have hnd2 : p ∉ A.params_nd :=
              fun h => absurd (c3.mp h).2.2 (by simp [hndf])
            constructor
            · simp [List.countP_append, List.countP_cons, i2, hd, hnd2,
                hin, matches_any_layer, List.any_cons, hsub]
            · simp [hnd2, hin, i3, hA, hndf, matches_any_layer,
                List.any_cons, hsub]
        · have hA : n ∉ A.names :=
            fun h => (c1.mp h).elim hin hsub
          rw [if_neg hA] at i2
          have hd : p ∉ A.params_d := fun h => hsub (c2.mp h).2.1
          have hnd2 : p ∉ A.params_nd := fun h => hsub (c3.mp h).2.1
          constructor
          · simp [List.countP_append, List.countP_cons, i2, hd, hnd2,
              hin, matches_any_layer, List.any_cons, hsub]
          · simp [hnd2, hin, i3, hA, matches_any_layer, List.any_cons, hsub]

/-- The two default groups count an unclaimed parameter exactly once and a
claimed one not at all. -/
theorem countP_default_groups (args : TrainerArgs) (model : NamedParams)
    (names : List String) (n : String) (p : Nat)
    (hp : (model.map (fun np => np.2)).Nodup) (hmem : (n, p) ∈ model)
    (h : args.train_custom_parameters_only = false) :
    (default_groups args model names).countP
        (fun g => decide (p ∈ g.params)) =
      if n ∈ names then 0 else 1 := by
  have h1 := mem_map_snd_filter model n p hp hmem
    (fun np => decide (np.1 ∉ names) && !any_no_decay np.1)
  have h2 := mem_map_snd_filter model n p hp hmem
    (fun np => decide (np.1 ∉ names) && any_no_decay np.1)
  simp only [Bool.and_eq_true, decide_eq_true_eq, Bool.not_eq_true'] at h1 h2
  simp only [default_groups, h, Bool.false_eq_true, if_false,
    List.countP_cons, List.countP_nil, decide_eq_true_eq, h1, h2]
  by_cases hin : n ∈ names
  · simp [hin]
  · by_cases hnd : any_no_decay n = true
    · simp [hin, hnd]
    · simp [hin, hnd]

/-- Every per-layer `group_nd` carries `weight_decay = 0.0`. -/
theorem process_layer_groups_nd_wd (model : NamedParams) :
    ∀ (lgs : List LayerGroup) (names : List String)
      (pr : OptGroup × OptGroup),
      pr ∈ (process_layer_groups model names lgs).2 →
      pr.2.weight_decay = some 0 := by
  intro lgs
  induction lgs with
  | nil => intro names pr h; simp [process_layer_groups] at h
  | cons lg rest ih =>
    intro names pr h
    simp only [process_layer_groups, List.mem_cons] at h
    rcases h with rfl | h
    · rfl
    · exact ih _ pr h

/-- Every no-decay-side group carries `weight_decay = 0.0`. -/
theorem nd_side_groups_wd (args : TrainerArgs) (model : NamedParams) :
    ∀ g ∈ nd_side_groups args model, g.weight_decay = some 0 := by
  intro g hg
  simp only [nd_side_groups, List.mem_append] at hg
  rcases hg with hg | hg
  · rcases List.mem_map.mp hg with ⟨pr, hpr, rfl⟩
    exact process_layer_groups_nd_wd model _ _ pr hpr
  · by_cases ht : args.train_custom_parameters_only
    · simp [ht] at hg
    · simp only [ht, Bool.false_eq_true, if_false, List.mem_singleton] at hg
      rw [hg]

/-- Counterexample to C4 as stated: with `args.weight_decay = 0.0` (the
scripts' argparse default), the plain parameter `"encoder.weight"` — whose
name contains neither `"bias"` nor `"LayerNorm.weight"` — still lands in a
group whose `weight_decay` is `0.0`, so the stated iff fails. -/
theorem claim_C4_counterexample :
    (optimizer_grouped_parameters plain_args plain_model).map
        (fun g => (g.params, g.weight_decay)) =
      [([0], some 0), ([1], some 0)] ∧
    any_no_decay "encoder.weight" = false ∧
    plain_args.weight_decay = 0 :=
  ⟨rfl, rfl, rfl⟩

/-- C4 (amended): with `train_custom_parameters_only` false, pairwise
disjoint custom name lists that are disjoint from the layer patterns, and
distinct parameter names and ids, every named parameter of the model lands
in exactly one group of `optimizer_grouped_parameters`; a parameter in no
custom group sits on the no-decay side — a per-layer `group_nd` or the
default no-decay group, the groups whose `weight_decay` the grouping code
itself sets to `0.0` — exactly when its name contains `"bias"` or
`"LayerNorm.weight"`. -/
theorem claim_C4_amended (args : TrainerArgs) (model : NamedParams)
    (n : String) (p : Nat) (hmem : (n, p) ∈ model)
    (htcpo : args.train_custom_parameters_only = false)
    (hdisj : args.custom_parameter_groups.Pairwise
      (fun g1 g2 => ∀ m ∈ g1.params, m ∉ g2.params))
    (hlay : ∀ g ∈ args.custom_parameter_groups, ∀ m ∈ g.params,
      matches_any_layer args.custom_layer_parameters m = false)
    (hn : (model.map (fun np => np.1)).Nodup)
    (hp : (model.map (fun np => np.2)).Nodup) :
    ((optimizer_grouped_parameters args model).countP
        (fun g => decide (p ∈ g.params)) = 1) ∧
    ((∀ g ∈ args.custom_parameter_groups, n ∉ g.params) →
      (p ∈ (nd_side_groups args model).flatMap (fun g => g.params) ↔
        any_no_decay n = true)) ∧
    (∀ g ∈ nd_side_groups args model, g.weight_decay = some 0) := by
  obtain ⟨s1, s2, s3⟩ := process_layer_groups_spec model n p hmem hn hp
    args.custom_layer_parameters
    (custom_names_init args.custom_parameter_groups)
  refine ⟨?_, ?_, nd_side_groups_wd args model⟩
  · rw [optimizer_grouped_parameters, List.countP_append,
      List.countP_append,
      countP_custom_groups model n p hp hmem args.custom_parameter_groups,
      s2, countP_default_groups args model
        ((process_layer_groups model
          (custom_names_init args.custom_parameter_groups)
          args.custom_layer_parameters).1) n p hp hmem htcpo]
    by_cases hex : ∃ g ∈ args.custom_parameter_groups, n ∈ g.params
    · obtain ⟨g0, hg0, hn0⟩ := hex
      have hone := countP_params_eq_one n args.custom_parameter_groups
        hdisj g0 hg0 hn0
      have hin0 : n ∈ custom_names_init args.custom_parameter_groups :=
        (mem_custom_names_init _ n).mpr ⟨g0, hg0, hn0⟩
      have hin1 : n ∈ (process_layer_groups model
          (custom_names_init args.custom_parameter_groups)
          args.custom_layer_parameters).1 := s1.mpr (Or.inl hin0)
      rw [hone, if_pos hin0, if_pos hin1]
    · have hzero := countP_params_eq_zero n args.custom_parameter_groups
        (fun g hg hn2 => hex ⟨g, hg, hn2⟩)
      have hout0 : n ∉ custom_names_init args.custom_parameter_groups :=
        fun h => hex ((mem_custom_names_init _ n).mp h)
      rw [hzero, if_neg hout0]
      by_cases hmatch : matches_any_layer args.custom_layer_parameters n =
          true
      · have hin1 : n ∈ (process_layer_groups model
            (custom_names_init args.custom_parameter_groups)
            args.custom_layer_parameters).1 := s1.mpr (Or.inr hmatch)
        rw [if_pos hmatch, if_pos hin1]
      · have hout1 : n ∉ (process_layer_groups model
            (custom_names_init args.custom_parameter_groups)
            args.custom_layer_parameters).1 :=
          fun h => (s1.mp h).elim hout0 hmatch
        rw [if_neg hout1]
        simp [hmatch]
  · intro hcust
    have hout0 : n ∉ custom_names_init args.custom_parameter_groups :=
      fun h => by
        rcases (mem_custom_names_init _ n).mp h with ⟨g, hg, hn2⟩
        exact hcust g hg hn2
    have hd := mem_map_snd_filter model n p hp hmem
      (fun np => decide (np.1 ∉ (process_layer_groups model
        (custom_names_init args.custom_parameter_groups)
        args.custom_layer_parameters).1) && any_no_decay np.1)
    simp only [nd_side_groups, htcpo, Bool.false_eq_true, if_false,
      List.flatMap_append, List.mem_append]
    constructor
    · rintro (hmem2 | hmem2)
      · exact ((s3.mp hmem2).2.2)
      · simp only [List.flatMap_cons, List.flatMap_nil, List.append_nil,
          List.mem_append] at hmem2
        have := hd.mp (by simpa using hmem2)
        simpa using (Bool.and_eq_true _ _).mp this |>.2
    · intro hnd
      by_cases hmatch : matches_any_layer args.custom_layer_parameters n =
          true
      · exact Or.inl (s3.mpr ⟨hout0, hmatch, hnd⟩)
      · refine Or.inr ?_
        have hout1 : n ∉ (process_layer_groups model
            (custom_names_init args.custom_parameter_groups)
            args.custom_layer_parameters).1 :=
          fun h => (s1.mp h).elim hout0 hmatch
        simp only [List.flatMap_cons, List.flatMap_nil, List.append_nil]
        exact hd.mpr (by simp [hout1, hnd])

/-- Witness for C4 (amended): in `layered_model` the parameter
`"pooler.bias"` is counted exactly once and sits on the no-decay side. -/
theorem claim_C4_amended_witness :
    ((optimizer_grouped_parameters layered_args layered_model).countP
        (fun g => decide (4 ∈ g.params)) = 1) ∧
    (4 ∈ (nd_side_groups layered_args layered_model).flatMap
        (fun g => g.params) ↔ any_no_decay "pooler.bias" = true) := by
  have h := claim_C4_amended layered_args layered_model "pooler.bias" 4
    (by decide) rfl (by decide) (by decide) (by decide) (by decide)
  exact ⟨h.1, h.2.1 (by decide)⟩

end FedNLP
